import Mathlib

/-!
Verification of the fsnotify event pipeline and watcher facade.

The Go sources are embedded shallowly: events are records of the four
canonical predicates plus a path, the per-watch pipeline is the list of
enabled filter steps built by `newPipeline`, mutable throttle state is
threaded explicitly as a `PState`, and wall-clock time is an explicit
`Nat` of nanoseconds.  Helper functions of the Go standard library that
the pipeline calls (`path/filepath.Match`, `path/filepath.Base`) are
translated here as well, at rune (character) granularity.
-/

namespace Fsnotify

/-- Go `path/filepath` `getEsc`: reads one possibly backslash-escaped
character of a `[...]` character class.  `none` models `ErrBadPattern`:
an empty chunk, a leading `-` or `]`, a trailing backslash, or a class
that ends immediately after the character. -/
def getEsc : List Char → Option (Char × List Char)
  | [] => none
  | c :: rest =>
    if c = '-' ∨ c = ']' then none
    else if c = '\\' then
      match rest with
      | [] => none
      | r :: rest2 => if rest2.isEmpty then none else some (r, rest2)
    else if rest.isEmpty then none else some (c, rest)

/-- The range-parsing loop of Go `filepath.matchChunk`'s `[` case: parses
ranges `lo-hi` (or single characters) until the closing `]`, accumulating
in `acc` whether the character `r` falls in some range and in `nrange`
how many ranges were seen.  The `fuel` argument bounds the loop; every
iteration consumes at least one character of the chunk, so any fuel
larger than the chunk length is never exhausted. -/
def matchRanges (r : Char) : Nat → List Char → Bool → Nat → Option (Bool × List Char)
  | 0, _, _, _ => none
  | _ + 1, ']' :: rest, acc, _ + 1 => some (acc, rest)
  | fuel + 1, chunk, acc, nrange =>
    match getEsc chunk with
    | none => none
    | some (lo, chunk1) =>
      match chunk1 with
      | '-' :: chunk2 =>
        match getEsc chunk2 with
        | none => none
        | some (hi, chunk3) =>
          matchRanges r fuel chunk3
            (acc || decide (lo.toNat ≤ r.toNat ∧ r.toNat ≤ hi.toNat)) (nrange + 1)
      | _ =>
        matchRanges r fuel chunk1
          (acc || decide (lo.toNat ≤ r.toNat ∧ r.toNat ≤ lo.toNat)) (nrange + 1)

/-- Go `filepath.matchChunk`: matches a star-free chunk of the pattern
against the start of `s`, returning the unmatched rest of `s` and whether
the chunk matched; `none` models `ErrBadPattern`.  Every iteration
consumes at least one character of the chunk, so fuel beyond the chunk
length is never exhausted. -/
def matchChunk : Nat → List Char → List Char → Option (List Char × Bool)
  | 0, _, _ => none
  | _ + 1, [], s => some (s, true)
  | fuel + 1, c :: chunkRest, s =>
    match s with
    | [] => some ([], false)
    | sc :: sRest =>
      if c = '[' then
        let negch : Bool × List Char :=
          match chunkRest with
          | '^' :: t => (true, t)
          | _ => (false, chunkRest)
        match matchRanges sc fuel negch.2 false 0 with
        | none => none
        | some (m, chunk2) =>
          if m == negch.1 then some ([], false)
          else matchChunk fuel chunk2 sRest
      else if c = '?' then
        if sc = '/' then some ([], false)
        else matchChunk fuel chunkRest sRest
      else if c = '\\' then
        match chunkRest with
        | [] => none
        | d :: chunkRest2 =>
          if d = sc then matchChunk fuel chunkRest2 sRest else some ([], false)
      else
        if c = sc then matchChunk fuel chunkRest sRest else some ([], false)

/-- Go `filepath.scanChunk`'s leading-star loop: strips leading `*`s and
reports whether any was present. -/
def dropStars : List Char → Bool × List Char
  | '*' :: rest => (true, (dropStars rest).2)
  | l => (false, l)

/-- Go `filepath.scanChunk`'s scan loop: splits the star-free prefix of
the pattern at the next top-level `*` (stars inside `[...]` and escaped
characters are part of the chunk). -/
def scanTo : List Char → Bool → List Char × List Char
  | [], _ => ([], [])
  | c :: rest, inrange =>
    if c = '\\' then
      match rest with
      | [] => (['\\'], [])
      | d :: rest2 =>
        let p := scanTo rest2 inrange
        ('\\' :: d :: p.1, p.2)
    else if c = '*' ∧ ¬inrange then ([], c :: rest)
    else
      let inrange2 := if c = '[' then true else if c = ']' then false else inrange
      let p := scanTo rest inrange2
      (c :: p.1, p.2)

/-- Go `filepath.scanChunk`: gets the next segment of the pattern —
whether it was preceded by stars, the star-free chunk, and the rest. -/
def scanChunk (pat : List Char) : Bool × List Char × List Char :=
  let sp := dropStars pat
  let cr := scanTo sp.2 false
  (sp.1, cr.1, cr.2)

/-- The inner `for i` loop of Go `filepath.Match`'s star case: tries to
match the chunk at every later position of the name, stopping at `/`.
`none` models `ErrBadPattern`; `some none` means the loop was exhausted
(overall non-match); `some (some t)` means the chunk matched leaving `t`
of the name. -/
def starLoop (chunk : List Char) (patEmpty : Bool) : List Char → Option (Option (List Char))
  | [] => some none
  | c :: rest =>
    if c = '/' then some none
    else
      match matchChunk (chunk.length + 1) chunk rest with
      | none => none
      | some (t, ok) =>
        if ok then
          if patEmpty ∧ ¬t.isEmpty then starLoop chunk patEmpty rest
          else some (some t)
        else starLoop chunk patEmpty rest

/-- The main loop of Go `filepath.Match`.  `none` models `ErrBadPattern`;
`some b` is the match verdict.  Every iteration consumes at least one
character of the pattern, so fuel beyond the pattern length is never
exhausted. -/
def matchLoop : Nat → List Char → List Char → Option Bool
  | 0, _, _ => none
  | fuel + 1, pat, name =>
    if pat.isEmpty then some name.isEmpty
    else
      let scr := scanChunk pat
      if scr.1 ∧ scr.2.1.isEmpty then some (!name.contains '/')
      else
        match matchChunk (scr.2.1.length + 1) scr.2.1 name with
        | none => none
        | some (t, ok) =>
          if ok ∧ (t.isEmpty ∨ ¬scr.2.2.isEmpty) then matchLoop fuel scr.2.2 t
          else if scr.1 then
            match starLoop scr.2.1 scr.2.2.isEmpty name with
            | none => none
            | some none => some false
            | some (some t2) => matchLoop fuel scr.2.2 t2
          else some false

/-- Go `path/filepath.Match(pattern, name)` (as called by the pipeline's
pattern step): shell file name pattern matching with `*`, `?` and
`[...]`.  `none` models `ErrBadPattern`. -/
def filepathMatch (pat name : String) : Option Bool :=
  matchLoop (pat.length + 1) pat.toList name.toList

/-- Go `path/filepath.Base` for slash-separated paths: empty path gives
`"."`, trailing slashes are dropped, everything up to the last slash is
dropped, and an all-slash path gives `"/"`. -/
def filepathBase (path : String) : String :=
  if path = "" then "."
  else
    let cs := (path.toList.reverse.dropWhile (fun c => c == '/')).reverse
    let leaf := (cs.reverse.takeWhile (fun c => c != '/')).reverse
    if leaf.isEmpty then "/" else String.mk leaf

/-- The worker of `hasPre`: does the first list lead the second? -/
def hasPreAux : List Char → List Char → Bool
  | [], _ => true
  | _ :: _, [] => false
  | p :: ps, c :: cs => p == c && hasPreAux ps cs

/-- Go `strings.HasPrefix` at rune granularity. -/
def hasPre (s pre : String) : Bool :=
  hasPreAux pre.toList s.toList

/-- `isHidden` (fsnotify, non-Windows): a path is hidden when its base
component starts with a dot and is neither `"."` nor `".."`. -/
def isHidden (name : String) : Bool :=
  let base := filepathBase name
  hasPre base "." && base != "." && base != ".."

/-- A canonical file-system event: the four predicates of the `Event`
interface plus the path (`Path()`). -/
structure Event where
  isCreate : Bool
  isDelete : Bool
  isModify : Bool
  isRename : Bool
  path : String
deriving DecidableEq, Repr

/-- Trigger bit `Create` (`Create Triggers = 1 << iota`). -/
def Create : Nat := 1

/-- Trigger bit `Modify`. -/
def Modify : Nat := 2

/-- Trigger bit `Delete`. -/
def Delete : Nat := 4

/-- Trigger bit `Rename`. -/
def Rename : Nat := 8

/-- `allTriggers = Modify | Delete | Rename | Create`. -/
def allTriggers : Nat := Modify ||| Delete ||| Rename ||| Create

/-- The worker of `stringsSplitComma`, over character lists. -/
def splitCommaAux : List Char → List (List Char)
  | [] => [[]]
  | c :: rest =>
    let r := splitCommaAux rest
    if c = ',' then [] :: r
    else (c :: r.headD []) :: r.tail

/-- Go `strings.Split(s, ",")`: the substrings between commas (an empty
string yields one empty piece). -/
def stringsSplitComma (s : String) : List String :=
  (splitCommaAux s.toList).map (fun l => String.mk l)

/-- `Options` for watching paths. -/
structure Options where
  verbose : Bool := false
  hidden : Bool := false
  triggers : Nat := 0
  pattern : String := ""
  throttle : Bool := false
  recursive : Bool := false
deriving DecidableEq, Repr

/-- The pipeline steps (`stepFn`s) that `newPipeline` can enable. -/
inductive Step where
  | verboseStep
  | hiddenStep
  | autoWatchStep
  | triggerStep
  | patternStep
  | throttleStep
deriving DecidableEq, Repr

/-- The `pipeline` struct: configuration copied from the options plus the
list of enabled steps.  The mutable throttle map lives in `PState`. -/
structure Pipeline where
  verbose : Bool := false
  hidden : Bool := false
  triggers : Nat := 0
  patterns : List String := []
  steps : List Step := []
deriving DecidableEq, Repr

/-- The per-pipeline mutable state: the throttle step's
`lastEventAt` map from path to the time an event was last forwarded
(nanoseconds). -/
structure PState where
  lastEventAt : List (String × Nat) := []
deriving DecidableEq, Repr

/-- `throttleLatency = 1 * time.Second`, in nanoseconds. -/
def throttleLatency : Nat := 1000000000

/-- The steps `newPipeline` appends, in its fixed order: verbose, hidden,
auto-watch, trigger, pattern, throttle — each only when its governing
option is active. -/
def enabledSteps (opt : Options) : List Step :=
  (if opt.verbose then [Step.verboseStep] else []) ++
  (if !opt.hidden then [Step.hiddenStep] else []) ++
  (if opt.recursive then [Step.autoWatchStep] else []) ++
  (if opt.triggers ≠ allTriggers ∧ opt.triggers ≠ 0 then [Step.triggerStep] else []) ++
  (if opt.pattern ≠ "" then [Step.patternStep] else []) ++
  (if opt.throttle then [Step.throttleStep] else [])

/-- `newPipeline` builds the pipeline from the options; the `triggers`
and `patterns` fields are only populated when the corresponding step is
enabled, exactly as in the source. -/
def newPipeline (opt : Options) : Pipeline where
  verbose := opt.verbose
  hidden := opt.hidden
  triggers := if opt.triggers ≠ allTriggers ∧ opt.triggers ≠ 0 then opt.triggers else 0
  patterns := if opt.pattern ≠ "" then stringsSplitComma opt.pattern else []
  steps := enabledSteps opt

/-- `triggerStep` discards any combination of create, modify, delete, or
rename events. -/
def triggerStep (p : Pipeline) (e : Event) : Bool :=
  if (p.triggers &&& Create == Create) && e.isCreate then true
  else if (p.triggers &&& Modify == Modify) && e.isModify then true
  else if (p.triggers &&& Delete == Delete) && e.isDelete then true
  else if (p.triggers &&& Rename == Rename) && e.isRename then true
  else false

/-- `patternStep` discards events whose base name matches none of the
shell file name patterns; `ErrBadPattern` is treated as a non-match. -/
def patternStep (p : Pipeline) (e : Event) : Bool :=
  p.patterns.any (fun pat => filepathMatch pat (filepathBase e.path) == some true)

/-- Go map assignment `m[k] = v` for the association lists that model
maps here. -/
def setAt (m : List (String × Nat)) (k : String) (v : Nat) : List (String × Nat) :=
  (k, v) :: m.filter (fun kv => kv.1 != k)

/-- `throttleStep`: rejects an event for a path whose last forwarded
event is at most `throttleLatency` old, otherwise records `now` as the
path's last-forwarded time and accepts. -/
def throttleStep (ps : PState) (now : Nat) (path : String) : Bool × PState :=
  match ps.lastEventAt.lookup path with
  | some eventAt =>
    if now - eventAt ≤ throttleLatency then (false, ps)
    else (true, { ps with lastEventAt := setAt ps.lastEventAt path now })
  | none => (true, { ps with lastEventAt := setAt ps.lastEventAt path now })

/-- Runs one enabled step.  `verboseStep` and `autoWatchStep` always
forward (their logging / watch-registration side effects do not touch
the event decision). -/
def runStep (p : Pipeline) (s : Step) (e : Event) (now : Nat) (ps : PState) :
    Bool × PState :=
  match s with
  | Step.verboseStep => (true, ps)
  | Step.hiddenStep => (!isHidden e.path, ps)
  | Step.autoWatchStep => (true, ps)
  | Step.triggerStep => (triggerStep p e, ps)
  | Step.patternStep => (patternStep p e, ps)
  | Step.throttleStep => throttleStep ps now e.path

/-- The later `processEvent` loop: early abort, don't run the remaining
steps after a rejection. -/
def runStepsSC (p : Pipeline) (e : Event) (now : Nat) :
    List Step → PState → Bool × PState
  | [], ps => (true, ps)
  | s :: rest, ps =>
    let r := runStep p s e now ps
    if r.1 then runStepsSC p e now rest r.2 else (false, r.2)

/-- `processEvent` (short-circuit revision): processes an event and
returns true if it should be forwarded. -/
def processEvent (p : Pipeline) (e : Event) (now : Nat) (ps : PState) :
    Bool × PState :=
  runStepsSC p e now p.steps ps

/-- The earlier `processEvent` loop: every step runs and the results are
combined with boolean AND, without short-circuit. -/
def runStepsAll (p : Pipeline) (e : Event) (now : Nat) :
    List Step → PState → Bool × PState
  | [], ps => (true, ps)
  | s :: rest, ps =>
    let r := runStep p s e now ps
    let r2 := runStepsAll p e now rest r.2
    (r.1 && r2.1, r2.2)

/-- `processEvent` (run-every-step revision). -/
def processEventAll (p : Pipeline) (e : Event) (now : Nat) (ps : PState) :
    Bool × PState :=
  runStepsAll p e now p.steps ps

/-- A step is one of the pure filters: no side effect, no mutable state. -/
abbrev pureFilter (s : Step) : Prop :=
  s = Step.hiddenStep ∨ s = Step.triggerStep ∨ s = Step.patternStep

/-- The zero value of the `pipeline` struct, which Go's
`w.pipelines[ev.Path()]` yields for an unwatched path: no steps, so
every event is forwarded. -/
def zeroPipeline : Pipeline := {}

/-- Go map deletion `delete(m, k)` for association-list maps. -/
def eraseKey {α : Type} (t : List (String × α)) (k : String) : List (String × α) :=
  t.filter (fun kv => kv.1 != k)

/-- One iteration of the dispatcher loop `Watcher.forwardEvents`: look up
the pipeline for the event's path (zero pipeline when unwatched), run it,
forward the event if it passed, persist the pipeline's mutable state, and
remove the watch-table entry if the event is a Delete.  Returns the new
table and the forwarded event, if any. -/
def dispatchOne (table : List (String × Pipeline × PState)) (e : Event) (now : Nat) :
    List (String × Pipeline × PState) × Option Event :=
  let entry := (table.lookup e.path).getD (zeroPipeline, {})
  let res := processEvent entry.1 e now entry.2
  let t1 := table.map (fun kv => if kv.1 == e.path then (kv.1, entry.1, res.2) else kv)
  let t2 := if e.isDelete then eraseKey t1 e.path else t1
  (t2, if res.1 then some e else none)

/-- `Watcher.forwardEvents`: drain the internal queue (here: a list of
events paired with their arrival times), dispatching each in turn; the
forwarded events are collected in order. -/
def forwardEvents (table : List (String × Pipeline × PState)) :
    List (Event × Nat) → List (String × Pipeline × PState) × List Event
  | [] => (table, [])
  | (e, now) :: rest =>
    let r := dispatchOne table e now
    let r2 := forwardEvents r.1 rest
    (r2.1, (r.2.toList) ++ r2.2)

/-- A node of the file tree that `filepath.Walk` traverses: a name, a
directory flag, and the children in listing order. -/
inductive FSNode where
  | node (name : String) (isDir : Bool) (children : List FSNode)

/-- The name of a file-tree node. -/
def FSNode.name : FSNode → String
  | FSNode.node n _ _ => n

/-- The directory flag of a file-tree node. -/
def FSNode.isDir : FSNode → Bool
  | FSNode.node _ d _ => d

mutual

/-- The walk driven by `subdirectories`' callback: `filepath.Walk`
visits a node; if it is a directory whose name is hidden while hidden
files are excluded the whole subtree is pruned (`filepath.SkipDir`),
otherwise a directory is recorded and its children are visited (via
`walkChildren`); non-directories are never recorded. -/
def walkCollect (includeHidden : Bool) (path : String) : FSNode → List String
  | FSNode.node name isDir children =>
    if isDir then
      if ¬includeHidden ∧ isHidden name then []
      else path :: walkChildren includeHidden path children
    else []

/-- The sibling loop of the walk: visit each child in listing order. -/
def walkChildren (includeHidden : Bool) (path : String) : List FSNode → List String
  | [] => []
  | c :: cs =>
    walkCollect includeHidden (path ++ "/" ++ c.name) c ++
      walkChildren includeHidden path cs

end

/-- `subdirectories(path, includeHidden)`: the directories below the
path, including the path itself; a nonexistent root (`none`) yields no
directories, since the walk callback propagates the stat error. -/
def subdirectories (fsys : Option FSNode) (rootPath : String) (includeHidden : Bool) :
    List String :=
  match fsys with
  | none => []
  | some t => walkCollect includeHidden rootPath t

/-- The error of `watchRecursively` when the walk finds nothing. -/
def noFoldersErr : String := "No folders to watch."

/-- `watchAll`: the registration loop of `watchRecursively` — watch each
folder in order, returning the first failure. -/
def watchAll (watchFn : String → Except String Unit) : List String → Except String Unit
  | [] => Except.ok ()
  | f :: rest =>
    match watchFn f with
    | Except.ok _ => watchAll watchFn rest
    | Except.error msg => Except.error msg

/-- `Watcher.watchRecursively`: list the directories below the path; fail
with `noFoldersErr` when there are none, otherwise register every one of
them (via the backend `watchFn`), propagating the first registration
error.  On success the registered folders are returned. -/
def watchRecursively (fsys : Option FSNode) (rootPath : String) (includeHidden : Bool)
    (watchFn : String → Except String Unit) : Except String (List String) :=
  let folders := subdirectories fsys rootPath includeHidden
  if folders = [] then Except.error noFoldersErr
  else
    match watchAll watchFn folders with
    | Except.ok _ => Except.ok folders
    | Except.error msg => Except.error msg

/-- The state of the kqueue backend `Watcher` that `Close` touches:
the `isClosed` flag, whether the quit message was sent on `done`, and
the watched-path table. -/
structure KqWatcher where
  isClosed : Bool := false
  doneSent : Bool := false
  watches : List (String × Nat) := []
deriving DecidableEq, Repr

/-- Kqueue backend `Watcher.Close`: a no-op returning `nil` when already
closed; otherwise sets `isClosed`, sends the quit message and removes
every watch. -/
def kqClose (w : KqWatcher) : KqWatcher × Option String :=
  if w.isClosed then (w, none)
  else ({ w with isClosed := true, doneSent := true, watches := [] }, none)

/-- The state of the Windows backend `Watcher` that `Close` touches: the
`isClosed` flag, whether the per-directory watch channels were closed,
and whether the external `Event` and `Error` channels were closed. -/
structure WinWatcher where
  isClosed : Bool := false
  dirWatchesClosed : Bool := false
  eventClosed : Bool := false
  errorClosed : Bool := false
deriving DecidableEq, Repr

/-- Windows backend `Watcher.Close`: a no-op returning `nil` when already
closed; otherwise sets `isClosed`, closes every directory watch channel
and closes the two external channels. -/
def winClose (w : WinWatcher) : WinWatcher × Option String :=
  if w.isClosed then (w, none)
  else
    ({ w with
        isClosed := true
        dirWatchesClosed := true
        eventClosed := true
        errorClosed := true }, none)

/-- `FileEvent.String` (canonical four-predicate revision): the `%q`
formatting of the path is abstracted as `q`. -/
def fileEventString (q : String → String) (e : Event) : String :=
  let events := ""
  let events := if e.isCreate then events ++ "|" ++ "CREATE" else events
  let events := if e.isDelete then events ++ "|" ++ "DELETE" else events
  let events := if e.isModify then events ++ "|" ++ "MODIFY" else events
  let events := if e.isRename then events ++ "|" ++ "RENAME" else events
  let events := if events.length > 0 then events.drop 1 else events
  q e.path ++ ": " ++ events

/-- The names of an event's true predicates, in the fixed order CREATE,
DELETE, MODIFY, RENAME (the specification's reading of the rendering). -/
def activeTriggerNames (e : Event) : List String :=
  (if e.isCreate then ["CREATE"] else []) ++
  (if e.isDelete then ["DELETE"] else []) ++
  (if e.isModify then ["MODIFY"] else []) ++
  (if e.isRename then ["RENAME"] else [])

/-- A file event of the revision with ATTRIB and CLOSE_WRITE
predicates (the inotify-flavoured `FileEvent`). -/
structure Event6 where
  isCreate : Bool
  isDelete : Bool
  isModify : Bool
  isRename : Bool
  isAttrib : Bool
  isCloseWrite : Bool
  name : String
deriving DecidableEq, Repr

/-- `FileEvent.String` (revision with ATTRIB/CLOSE_WRITE): same
rendering with the two extra names appended after RENAME. -/
def fileEventString6 (q : String → String) (e : Event6) : String :=
  let events := ""
  let events := if e.isCreate then events ++ "|" ++ "CREATE" else events
  let events := if e.isDelete then events ++ "|" ++ "DELETE" else events
  let events := if e.isModify then events ++ "|" ++ "MODIFY" else events
  let events := if e.isRename then events ++ "|" ++ "RENAME" else events
  let events := if e.isAttrib then events ++ "|" ++ "ATTRIB" else events
  let events := if e.isCloseWrite then events ++ "|" ++ "CLOSE_WRITE" else events
  let events := if events.length > 0 then events.drop 1 else events
  q e.name ++ ": " ++ events

/-- A concrete Delete event for path `"d"`. -/
def sampleDeleteEvent : Event where
  isCreate := false
  isDelete := true
  isModify := false
  isRename := false
  path := "d"

/-- A concrete Modify event for path `"main.go"`. -/
def sampleGoEvent : Event where
  isCreate := false
  isDelete := false
  isModify := true
  isRename := false
  path := "main.go"

/-- A concrete already-closed kqueue watcher. -/
def kqClosedSample : KqWatcher := { isClosed := true, doneSent := true, watches := [] }

/-- A concrete fresh kqueue watcher with one watch. -/
def kqFreshSample : KqWatcher := { isClosed := false, doneSent := false, watches := [("a", 3)] }

/-- A concrete already-closed Windows watcher. -/
def winClosedSample : WinWatcher where
  isClosed := true
  dirWatchesClosed := true
  eventClosed := true
  errorClosed := true

/-- A concrete fresh Windows watcher. -/
def winFreshSample : WinWatcher where
  isClosed := false
  dirWatchesClosed := false
  eventClosed := false
  errorClosed := false

/-- Kqueue backend `Watcher.RemoveWatch`: fails when the path has no
watch descriptor; otherwise closes the descriptor, deregisters the
kevent (modelled as succeeding) and deletes the table entry. -/
def kqRemoveWatch (watches : List (String × Nat)) (path : String) :
    List (String × Nat) × Except String Unit :=
  match watches.lookup path with
  | none =>
    (watches, Except.error ("can't remove non-existent kevent watch for: " ++ path))
  | some _ => (eraseKey watches path, Except.ok ())

/-- Facade `Watcher.RemoveWatch`: unconditionally delete the path from
the facade `pipelines` table, then invoke the backend removal, returning
its result. -/
def removeWatchFacade (pipelines : List (String × Pipeline))
    (watches : List (String × Nat)) (path : String) :
    List (String × Pipeline) × List (String × Nat) × Except String Unit :=
  let pipelines2 := eraseKey pipelines path
  let r := kqRemoveWatch watches path
  (pipelines2, r.1, r.2)

theorem runStep_pure (p : Pipeline) (s : Step) (e : Event) (now : Nat) (ps : PState)
    (h : pureFilter s) : (runStep p s e now ps).2 = ps := by
  rcases h with h | h | h <;> subst h <;> rfl

theorem runSteps_all_eq_sc (p : Pipeline) (e : Event) (now : Nat) :
    ∀ (l : List Step) (ps : PState), (∀ s ∈ l, pureFilter s) →
      (runStepsAll p e now l ps).1 = (runStepsSC p e now l ps).1 := by
  intro l
  induction l with
  | nil => intro ps _; rfl
  | cons s rest ih =>
    intro ps h
    have hs : pureFilter s := h s (List.mem_cons_self s rest)
    have hrest : ∀ t ∈ rest, pureFilter t := fun t ht => h t (List.mem_cons_of_mem s ht)
    have hst : (runStep p s e now ps).2 = ps := runStep_pure p s e now ps hs
    simp only [runStepsAll, runStepsSC]
    cases hr : (runStep p s e now ps).1 with
    | false => simp [hr]
    | true => simp [hr, ih _ hrest]

theorem triggerStep_iff (p : Pipeline) (e : Event) :
    triggerStep p e = true ↔
      ((e.isCreate = true ∧ p.triggers &&& Create = Create) ∨
       (e.isModify = true ∧ p.triggers &&& Modify = Modify) ∨
       (e.isDelete = true ∧ p.triggers &&& Delete = Delete) ∨
       (e.isRename = true ∧ p.triggers &&& Rename = Rename)) := by
  unfold triggerStep
  rcases e with ⟨c, d, m, r, pth⟩
  by_cases hC : p.triggers &&& Create = Create <;>
    by_cases hM : p.triggers &&& Modify = Modify <;>
      by_cases hD : p.triggers &&& Delete = Delete <;>
        by_cases hR : p.triggers &&& Rename = Rename <;>
          cases c <;> cases d <;> cases m <;> cases r <;>
            simp_all [beq_iff_eq]

/-- C1: Trigger filter — for every event `e` and trigger mask `M`, a
pipeline built with `Options{Hidden: true, Triggers: M}` (no pattern, no
throttle, no recursion) forwards `e` iff `M` is the all-triggers mask,
`M` is zero, or at least one of `e`'s true predicates has its bit set in
`M`.  Concretely, `M = Delete` forwards a pure Delete event and rejects
pure Create, Modify and Rename events. -/
theorem trigger_filter_C1 (M : Nat) (e : Event) (now : Nat) (ps : PState) :
    ((processEvent (newPipeline { hidden := true, triggers := M }) e now ps).1 = true ↔
      (M = allTriggers ∨ M = 0 ∨
        (e.isCreate = true ∧ M &&& Create = Create) ∨
        (e.isModify = true ∧ M &&& Modify = Modify) ∨
        (e.isDelete = true ∧ M &&& Delete = Delete) ∨
        (e.isRename = true ∧ M &&& Rename = Rename)))
    ∧ (processEvent (newPipeline { hidden := true, triggers := Delete })
        { isCreate := false, isDelete := true, isModify := false, isRename := false,
          path := "f" } 0 ⟨[]⟩).1 = true
    ∧ (processEvent (newPipeline { hidden := true, triggers := Delete })
        { isCreate := true, isDelete := false, isModify := false, isRename := false,
          path := "f" } 0 ⟨[]⟩).1 = false
    ∧ (processEvent (newPipeline { hidden := true, triggers := Delete })
        { isCreate := false, isDelete := false, isModify := true, isRename := false,
          path := "f" } 0 ⟨[]⟩).1 = false
    ∧ (processEvent (newPipeline { hidden := true, triggers := Delete })
        { isCreate := false, isDelete := false, isModify := false, isRename := true,
          path := "f" } 0 ⟨[]⟩).1 = false := by
  refine ⟨?_, by decide, by decide, by decide, by decide⟩
  by_cases h1 : M = allTriggers
  · simp [processEvent, newPipeline, enabledSteps, runStepsSC, h1]
  · by_cases h2 : M = 0
    · simp [processEvent, newPipeline, enabledSteps, runStepsSC, h2]
    · have hsteps : (newPipeline { hidden := true, triggers := M } : Pipeline).steps =
          [Step.triggerStep] := by
        simp [newPipeline, enabledSteps, h1, h2]
      have htrg : (newPipeline { hidden := true, triggers := M } : Pipeline).triggers = M := by
        simp [newPipeline, h1, h2]
      have hrun : (processEvent (newPipeline { hidden := true, triggers := M }) e now ps).1 =
          triggerStep (newPipeline { hidden := true, triggers := M }) e := by
        rw [processEvent, hsteps]
        simp only [runStepsSC, runStep]
        cases triggerStep (newPipeline { hidden := true, triggers := M }) e <;> simp
      rw [hrun, triggerStep_iff, htrg]
      simp [h1, h2]

theorem hasPre_dot_iff (s : String) :
    hasPre s "." = true ↔ s.toList.head? = some '.' := by
  unfold hasPre
  have hd : (("." : String).toList) = ['.'] := rfl
  rw [hd]
  cases h : s.toList with
  | nil => simp [hasPreAux]
  | cons c rest =>
    show ((('.' : Char) == c) && hasPreAux [] rest) = true ↔ _
    rw [Bool.and_eq_true, beq_iff_eq]
    constructor
    · rintro ⟨h1, _⟩
      rw [List.head?_cons, ← h1]
    · intro hx
      rw [List.head?_cons] at hx
      refine ⟨?_, rfl⟩
      exact (Option.some.injEq _ _ ▸ hx).symm

/-- C2: Hidden filter — a pipeline built with `Options{Hidden: false}`
(defaults otherwise) rejects an event iff the base component of its path
begins with `.` and is not exactly `.` or `..`; `.subl26d.tmp` and
`folder/.DS_Store` are rejected while `main.go` is accepted, and with
`Options{Hidden: true}` all three are forwarded. -/
theorem hidden_filter_C2 (e : Event) (now : Nat) (ps : PState) :
    ((processEvent (newPipeline { hidden := false }) e now ps).1 = false ↔
      ((filepathBase e.path).toList.head? = some '.' ∧
        filepathBase e.path ≠ "." ∧ filepathBase e.path ≠ ".."))
    ∧ (processEvent (newPipeline { hidden := false })
        { isCreate := false, isDelete := false, isModify := true, isRename := false,
          path := ".subl26d.tmp" } 0 ⟨[]⟩).1 = false
    ∧ (processEvent (newPipeline { hidden := false })
        { isCreate := false, isDelete := false, isModify := true, isRename := false,
          path := "folder/.DS_Store" } 0 ⟨[]⟩).1 = false
    ∧ (processEvent (newPipeline { hidden := false })
        { isCreate := false, isDelete := false, isModify := true, isRename := false,
          path := "main.go" } 0 ⟨[]⟩).1 = true
    ∧ (processEvent (newPipeline { hidden := true })
        { isCreate := false, isDelete := false, isModify := true, isRename := false,
          path := ".subl26d.tmp" } 0 ⟨[]⟩).1 = true
    ∧ (processEvent (newPipeline { hidden := true })
        { isCreate := false, isDelete := false, isModify := true, isRename := false,
          path := "folder/.DS_Store" } 0 ⟨[]⟩).1 = true
    ∧ (processEvent (newPipeline { hidden := true })
        { isCreate := false, isDelete := false, isModify := true, isRename := false,
          path := "main.go" } 0 ⟨[]⟩).1 = true := by
  refine ⟨?_, by decide, by decide, by decide, by decide, by decide, by decide⟩
  have hsteps : (newPipeline { hidden := false } : Pipeline).steps = [Step.hiddenStep] := by
    decide
  have hrun : (processEvent (newPipeline { hidden := false }) e now ps).1 =
      !isHidden e.path := by
    rw [processEvent, hsteps]
    simp only [runStepsSC, runStep]
    cases h : isHidden e.path <;> simp [h, runStepsSC]
  rw [hrun]
  unfold isHidden
  simp [Bool.and_eq_true, hasPre_dot_iff, bne_iff_ne, and_assoc]

/-- C3: Pattern filter — with an empty pattern every event is forwarded
(the step is absent); with a non-empty pattern `s` an event is forwarded
iff the base component of its path matches at least one comma-separated
shell glob of `s` (a malformed glob counting as a non-match).
Concretely, `"*.go"` accepts `main.go` and `folder/main.go` and rejects
`main.c`; `"*.go,*.c"` accepts `main.go` and `main.c` and rejects
`README.md`. -/
theorem pattern_filter_C3 (s : String) (e : Event) (now : Nat) (ps : PState)
    (hs : s ≠ "") :
    ((processEvent (newPipeline { hidden := true }) e now ps).1 = true)
    ∧ ((processEvent (newPipeline { hidden := true, pattern := s }) e now ps).1 = true ↔
        (stringsSplitComma s).any
          (fun pat => filepathMatch pat (filepathBase e.path) == some true) = true)
    ∧ (processEvent (newPipeline { hidden := true, pattern := "*.go" })
        { isCreate := false, isDelete := false, isModify := true, isRename := false,
          path := "main.go" } 0 ⟨[]⟩).1 = true
    ∧ (processEvent (newPipeline { hidden := true, pattern := "*.go" })
        { isCreate := false, isDelete := false, isModify := true, isRename := false,
          path := "folder/main.go" } 0 ⟨[]⟩).1 = true
    ∧ (processEvent (newPipeline { hidden := true, pattern := "*.go" })
        { isCreate := false, isDelete := false, isModify := true, isRename := false,
          path := "main.c" } 0 ⟨[]⟩).1 = false
    ∧ (processEvent (newPipeline { hidden := true, pattern := "*.go,*.c" })
        { isCreate := false, isDelete := false, isModify := true, isRename := false,
          path := "main.go" } 0 ⟨[]⟩).1 = true
    ∧ (processEvent (newPipeline { hidden := true, pattern := "*.go,*.c" })
        { isCreate := false, isDelete := false, isModify := true, isRename := false,
          path := "main.c" } 0 ⟨[]⟩).1 = true
    ∧ (processEvent (newPipeline { hidden := true, pattern := "*.go,*.c" })
        { isCreate := false, isDelete := false, isModify := true, isRename := false,
          path := "README.md" } 0 ⟨[]⟩).1 = false := by
  refine ⟨rfl, ?_, by decide, by decide, by decide, by decide, by decide, by decide⟩
  have hsteps : (newPipeline { hidden := true, pattern := s } : Pipeline).steps =
      [Step.patternStep] := by
    simp [newPipeline, enabledSteps, hs]
  have hpats : (newPipeline { hidden := true, pattern := s } : Pipeline).patterns =
      stringsSplitComma s := by
    simp [newPipeline, hs]
  have hrun : (processEvent (newPipeline { hidden := true, pattern := s }) e now ps).1 =
      patternStep (newPipeline { hidden := true, pattern := s }) e := by
    rw [processEvent, hsteps]
    simp only [runStepsSC, runStep]
    cases h : patternStep (newPipeline { hidden := true, pattern := s }) e <;>
      simp [h, runStepsSC]
  rw [hrun]
  unfold patternStep
  rw [hpats]

/-- Witness for C3 at the pattern `"*.go"` and the event for
`main.go`. -/
theorem pattern_filter_C3_witness :
    (processEvent (newPipeline { hidden := true, pattern := "*.go" })
        sampleGoEvent 0 ⟨[]⟩).1 = true ↔
      (stringsSplitComma "*.go").any
        (fun pat => filepathMatch pat (filepathBase sampleGoEvent.path) == some true)
        = true :=
  (pattern_filter_C3 "*.go" sampleGoEvent 0 ⟨[]⟩ (by decide)).2.1

/-- C5: Composition equivalence — for every pipeline whose enabled steps
are all pure filters (hidden, trigger, pattern) and every event, the
earlier run-every-step-and-AND `processEvent` returns the same boolean
as the later short-circuit `processEvent`. -/
theorem composition_equivalence_C5 (p : Pipeline) (e : Event) (now : Nat) (ps : PState)
    (h : ∀ s ∈ p.steps, pureFilter s) :
    (processEventAll p e now ps).1 = (processEvent p e now ps).1 :=
  runSteps_all_eq_sc p e now p.steps ps h

/-- Witness for C5 at the pipeline `Options{Triggers: Delete}` (steps:
hidden then trigger) and a concrete Delete event. -/
theorem composition_equivalence_C5_witness :
    (processEventAll (newPipeline { triggers := Delete })
        { isCreate := false, isDelete := true, isModify := false, isRename := false,
          path := "a.go" } 0 ⟨[]⟩).1 =
      (processEvent (newPipeline { triggers := Delete })
        { isCreate := false, isDelete := true, isModify := false, isRename := false,
          path := "a.go" } 0 ⟨[]⟩).1 :=
  composition_equivalence_C5 _ _ _ _ (by decide)

theorem lookup_cons_hit {β : Type} (k a : String) (v : β) (t : List (String × β))
    (h : (k == a) = true) : ((a, v) :: t).lookup k = some v := by
  simp [List.lookup, h]

theorem lookup_cons_miss {β : Type} (k a : String) (v : β) (t : List (String × β))
    (h : (k == a) = false) : ((a, v) :: t).lookup k = t.lookup k := by
  simp [List.lookup, h]

theorem lookup_filter_ne {β : Type} (k k2 : String) (h : k2 ≠ k) :
    ∀ t : List (String × β),
      (t.filter (fun kv => kv.1 != k)).lookup k2 = t.lookup k2 := by
  intro t
  induction t with
  | nil => rfl
  | cons a t ih =>
    rcases a with ⟨ak, av⟩
    by_cases hak : ak = k
    · rw [List.filter_cons, if_neg (by simp [hak])]
      rw [ih, lookup_cons_miss _ _ _ _
        (beq_eq_false_iff_ne.mpr (fun hx => h (hx.trans hak)))]
    · rw [List.filter_cons, if_pos (by simp [hak])]
      cases hk2 : (k2 == ak)
      · rw [lookup_cons_miss _ _ _ _ hk2, lookup_cons_miss _ _ _ _ hk2, ih]
      · rw [lookup_cons_hit _ _ _ _ hk2, lookup_cons_hit _ _ _ _ hk2]

theorem lookup_setAt_self (m : List (String × Nat)) (k : String) (v : Nat) :
    (setAt m k v).lookup k = some v :=
  lookup_cons_hit _ _ _ _ (beq_self_eq_true k)

theorem lookup_setAt_ne (m : List (String × Nat)) (k k2 : String) (v : Nat)
    (h : k2 ≠ k) : (setAt m k v).lookup k2 = m.lookup k2 := by
  rw [setAt, lookup_cons_miss _ _ _ _ (beq_eq_false_iff_ne.mpr h), lookup_filter_ne _ _ h]

theorem lookup_eraseKey_self {β : Type} (t : List (String × β)) (k : String) :
    (eraseKey t k).lookup k = none := by
  induction t with
  | nil => rfl
  | cons a t ih =>
    rcases a with ⟨ak, av⟩
    by_cases hak : ak = k
    · rw [eraseKey, List.filter_cons, if_neg (by simp [hak])]
      exact ih
    · rw [eraseKey, List.filter_cons, if_pos (by simp [hak])]
      rw [lookup_cons_miss _ _ _ _ (beq_eq_false_iff_ne.mpr (fun hx => hak hx.symm))]
      exact ih

theorem throttleStep_fresh (ps : PState) (n : Nat) (p : String)
    (h : ps.lastEventAt.lookup p = none) :
    throttleStep ps n p = (true, { ps with lastEventAt := setAt ps.lastEventAt p n }) := by
  unfold throttleStep
  rw [h]

theorem throttleStep_recent (ps : PState) (n : Nat) (p : String) (t0 : Nat)
    (hl : ps.lastEventAt.lookup p = some t0) (hle : n - t0 ≤ throttleLatency) :
    throttleStep ps n p = (false, ps) := by
  unfold throttleStep
  rw [hl]
  simp only [if_pos hle]

/-- C4: Throttle — with `Options{Throttle: true, Hidden: true}`, the
first processed event for a fresh path is forwarded and the current time
is recorded as the path's last-forwarded time; a subsequent event for
the identical path while at most one second has elapsed is rejected; an
event for a different (fresh) path is unaffected and forwarded. -/
theorem throttle_C4 (e1 e2 e3 : Event) (now now2 : Nat) (ps : PState)
    (h2 : e2.path = e1.path) (h3 : e3.path ≠ e1.path)
    (hfresh : ps.lastEventAt.lookup e1.path = none)
    (hfresh3 : ps.lastEventAt.lookup e3.path = none)
    (helapsed : now2 - now ≤ throttleLatency) :
    ((processEvent (newPipeline { hidden := true, throttle := true }) e1 now ps).1 = true)
    ∧ ((processEvent (newPipeline { hidden := true, throttle := true })
          e1 now ps).2.lastEventAt.lookup e1.path = some now)
    ∧ ((processEvent (newPipeline { hidden := true, throttle := true }) e2 now2
          (processEvent (newPipeline { hidden := true, throttle := true }) e1 now ps).2).1
        = false)
    ∧ ((processEvent (newPipeline { hidden := true, throttle := true }) e3 now2
          (processEvent (newPipeline { hidden := true, throttle := true }) e1 now ps).2).1
        = true) := by
  have hsteps : (newPipeline { hidden := true, throttle := true } : Pipeline).steps =
      [Step.throttleStep] := by decide
  have hrun : ∀ (e : Event) (n : Nat) (st : PState),
      processEvent (newPipeline { hidden := true, throttle := true }) e n st =
        throttleStep st n e.path := by
    intro e n st
    rw [processEvent, hsteps]
    simp only [runStepsSC, runStep]
    cases hr : throttleStep st n e.path with
    | mk b st2 => cases b <;> simp [hr, runStepsSC]
  simp only [hrun]
  rw [throttleStep_fresh ps now e1.path hfresh]
  refine ⟨rfl, lookup_setAt_self _ _ _, ?_, ?_⟩
  · rw [h2]
    show (throttleStep { lastEventAt := setAt ps.lastEventAt e1.path now } now2 e1.path).1
      = false
    rw [throttleStep_recent { lastEventAt := setAt ps.lastEventAt e1.path now }
      now2 e1.path now (lookup_setAt_self _ _ _) helapsed]
  · show (throttleStep { lastEventAt := setAt ps.lastEventAt e1.path now } now2 e3.path).1
      = true
    rw [throttleStep_fresh { lastEventAt := setAt ps.lastEventAt e1.path now } now2 e3.path
      (show (setAt ps.lastEventAt e1.path now).lookup e3.path = none by
        rw [lookup_setAt_ne _ _ _ _ h3]; exact hfresh3)]

/-- Witness for C4: path `"P"` throttled at 0.5 s, path `"Q"` untouched. -/
theorem throttle_C4_witness :
    ((processEvent (newPipeline { hidden := true, throttle := true })
        { isCreate := false, isDelete := false, isModify := true, isRename := false,
          path := "P" } 0 ⟨[]⟩).1 = true)
    ∧ ((processEvent (newPipeline { hidden := true, throttle := true })
        { isCreate := false, isDelete := false, isModify := true, isRename := false,
          path := "P" } 0 ⟨[]⟩).2.lastEventAt.lookup "P" = some 0)
    ∧ ((processEvent (newPipeline { hidden := true, throttle := true })
        { isCreate := false, isDelete := false, isModify := true, isRename := false,
          path := "P" } 500000000
        (processEvent (newPipeline { hidden := true, throttle := true })
          { isCreate := false, isDelete := false, isModify := true, isRename := false,
            path := "P" } 0 ⟨[]⟩).2).1 = false)
    ∧ ((processEvent (newPipeline { hidden := true, throttle := true })
        { isCreate := false, isDelete := false, isModify := true, isRename := false,
          path := "Q" } 500000000
        (processEvent (newPipeline { hidden := true, throttle := true })
          { isCreate := false, isDelete := false, isModify := true, isRename := false,
            path := "P" } 0 ⟨[]⟩).2).1 = true) :=
  throttle_C4
    { isCreate := false, isDelete := false, isModify := true, isRename := false,
      path := "P" }
    { isCreate := false, isDelete := false, isModify := true, isRename := false,
      path := "P" }
    { isCreate := false, isDelete := false, isModify := true, isRename := false,
      path := "Q" }
    0 500000000 ⟨[]⟩ rfl (by decide) rfl rfl (by decide)

/-- C6: Delete retires watch — for every event drained by the
dispatcher, if it is a Delete then after the dispatcher handles it the
watch table contains no entry for its path, while the forwarding
decision is made against the pipeline looked up in the table before the
removal (the Delete event itself is still matched to its pipeline). -/
theorem delete_retires_watch_C6 (table : List (String × Pipeline × PState)) (e : Event)
    (now : Nat) (hdel : e.isDelete = true) :
    ((dispatchOne table e now).1.lookup e.path = none)
    ∧ ((dispatchOne table e now).2 =
        if (processEvent ((table.lookup e.path).getD (zeroPipeline, ⟨[]⟩)).1 e now
              ((table.lookup e.path).getD (zeroPipeline, ⟨[]⟩)).2).1
        then some e else none) := by
  refine ⟨?_, rfl⟩
  show (if e.isDelete then eraseKey _ e.path else _).lookup e.path = none
  rw [hdel, if_pos rfl]
  exact lookup_eraseKey_self _ _

/-- Witness for C6: a one-entry table and a Delete event for that entry;
the event is forwarded and the entry is gone. -/
theorem delete_retires_watch_C6_witness :
    ((dispatchOne [("d", zeroPipeline, ⟨[]⟩)] sampleDeleteEvent 0).1.lookup "d" = none)
    ∧ ((dispatchOne [("d", zeroPipeline, ⟨[]⟩)] sampleDeleteEvent 0).2 =
        some sampleDeleteEvent) :=
  delete_retires_watch_C6 [("d", zeroPipeline, ⟨[]⟩)] sampleDeleteEvent 0 rfl

theorem watchAll_ne_noFolders (watchFn : String → Except String Unit)
    (hw : ∀ p, watchFn p ≠ Except.error noFoldersErr) :
    ∀ l, watchAll watchFn l ≠ Except.error noFoldersErr := by
  intro l
  induction l with
  | nil => intro hx; exact Except.noConfusion hx
  | cons f rest ih =>
    intro hx
    rw [watchAll] at hx
    cases hwf : watchFn f with
    | ok u => rw [hwf] at hx; exact ih hx
    | error msg =>
      rw [hwf] at hx
      injection hx with hmsg
      exact hw f (by rw [hwf, hmsg])

theorem watchAll_ok (watchFn : String → Except String Unit)
    (hok : ∀ p, watchFn p = Except.ok ()) :
    ∀ l, watchAll watchFn l = Except.ok () := by
  intro l
  induction l with
  | nil => rfl
  | cons f rest ih =>
    rw [watchAll, hok f]
    exact ih

theorem watchRecursively_eq (fsys : Option FSNode) (root : String) (hidden : Bool)
    (watchFn : String → Except String Unit) :
    watchRecursively fsys root hidden watchFn =
      if subdirectories fsys root hidden = [] then Except.error noFoldersErr
      else
        match watchAll watchFn (subdirectories fsys root hidden) with
        | Except.ok _ => Except.ok (subdirectories fsys root hidden)
        | Except.error msg => Except.error msg := rfl

/-- C7: Recursive registration — `watchRecursively` fails with the
"No folders to watch." error iff the walk finds no directories (the
backend watch itself never produces that error text); when directories
are found and every backend watch succeeds, all of them are registered.
The walk includes the root and every descendant directory, except that
with hidden files excluded a dot-named directory is pruned together
with its entire subtree, as the two concrete trees show. -/
theorem recursive_registration_C7 (fsys : Option FSNode) (root : String) (hidden : Bool)
    (watchFn : String → Except String Unit)
    (hw : ∀ p, watchFn p ≠ Except.error noFoldersErr) :
    ((watchRecursively fsys root hidden watchFn = Except.error noFoldersErr) ↔
      subdirectories fsys root hidden = [])
    ∧ (subdirectories fsys root hidden ≠ [] → (∀ p, watchFn p = Except.ok ()) →
        watchRecursively fsys root hidden watchFn =
          Except.ok (subdirectories fsys root hidden))
    ∧ (subdirectories (some (FSNode.node "root" true
          [FSNode.node ".git" true [FSNode.node "objects" true []],
           FSNode.node "src" true [FSNode.node ".hg" true [], FSNode.node "pkg" true []],
           FSNode.node "main.go" false []])) "root" false
        = ["root", "root/src", "root/src/pkg"])
    ∧ (subdirectories (some (FSNode.node "root" true
          [FSNode.node ".git" true [FSNode.node "objects" true []],
           FSNode.node "src" true [FSNode.node ".hg" true [], FSNode.node "pkg" true []],
           FSNode.node "main.go" false []])) "root" true
        = ["root", "root/.git", "root/.git/objects", "root/src", "root/src/.hg",
           "root/src/pkg"]) := by
  refine ⟨?_, ?_, by decide, by decide⟩
  · rw [watchRecursively_eq]
    by_cases hempty : subdirectories fsys root hidden = []
    · simp [hempty]
    · rw [if_neg hempty]
      cases hall : watchAll watchFn (subdirectories fsys root hidden) with
      | ok u => simp [hall, hempty]
      | error msg =>
        simp only [hall]
        constructor
        · intro hx
          injection hx with hmsg
          exact absurd (by rw [hall, hmsg]) (watchAll_ne_noFolders watchFn hw _)
        · intro hx
          exact absurd hx hempty
  · intro hne hok
    rw [watchRecursively_eq, if_neg hne]
    simp only [watchAll_ok watchFn hok]

/-- Witness for C7: a two-directory tree with an always-succeeding
backend watch. -/
theorem recursive_registration_C7_witness :
    ((watchRecursively (some (FSNode.node "root" true [FSNode.node "sub" true []]))
        "root" false (fun _ => Except.ok ()) = Except.error noFoldersErr) ↔
      subdirectories (some (FSNode.node "root" true [FSNode.node "sub" true []]))
        "root" false = [])
    ∧ (watchRecursively (some (FSNode.node "root" true [FSNode.node "sub" true []]))
        "root" false (fun _ => Except.ok ()) =
        Except.ok (subdirectories
          (some (FSNode.node "root" true [FSNode.node "sub" true []])) "root" false)) :=
  have h := recursive_registration_C7
    (some (FSNode.node "root" true [FSNode.node "sub" true []])) "root" false
    (fun _ => Except.ok ()) (fun _ hx => Except.noConfusion hx)
  ⟨h.1, h.2.1 (by decide) (fun _ => rfl)⟩

/-- C8: Close idempotence — for both backends, calling `Close` on an
already-closed watcher returns `nil` and leaves the entire state
unchanged (no further teardown), and in particular a second `Close`
after a first one is always such a no-op. -/
theorem close_idempotent_C8 (w w0 : KqWatcher) (v v0 : WinWatcher)
    (hw : w.isClosed = true) (hv : v.isClosed = true) :
    (kqClose w = (w, none)) ∧ (winClose v = (v, none))
    ∧ (kqClose (kqClose w0).1 = ((kqClose w0).1, none))
    ∧ (winClose (winClose v0).1 = ((winClose v0).1, none)) := by
  have hkq : ∀ u : KqWatcher, u.isClosed = true → kqClose u = (u, none) := by
    intro u hu
    unfold kqClose
    rw [if_pos hu]
  have hwin : ∀ u : WinWatcher, u.isClosed = true → winClose u = (u, none) := by
    intro u hu
    unfold winClose
    rw [if_pos hu]
  have h1 : (kqClose w0).1.isClosed = true := by
    unfold kqClose
    by_cases h : w0.isClosed = true
    · rw [if_pos h]; exact h
    · rw [if_neg h]
  have h2 : (winClose v0).1.isClosed = true := by
    unfold winClose
    by_cases h : v0.isClosed = true
    · rw [if_pos h]; exact h
    · rw [if_neg h]
  exact ⟨hkq w hw, hwin v hv, hkq _ h1, hwin _ h2⟩

/-- Witness for C8: concrete closed watchers of both backends, and
concrete fresh watchers closed twice. -/
theorem close_idempotent_C8_witness :
    (kqClose kqClosedSample = (kqClosedSample, none))
    ∧ (winClose winClosedSample = (winClosedSample, none))
    ∧ (kqClose (kqClose kqFreshSample).1 = ((kqClose kqFreshSample).1, none))
    ∧ (winClose (winClose winFreshSample).1 = ((winClose winFreshSample).1, none)) :=
  close_idempotent_C8 kqClosedSample kqFreshSample winClosedSample winFreshSample rfl rfl

/-- C9: Event rendering — `FileEvent.String` yields the quoted path, a
colon and a space, then the pipe-joined names of exactly the true
predicates in the fixed order CREATE, DELETE, MODIFY, RENAME, with no
leading or trailing pipe and an empty names part when no predicate
holds; the quoting function is abstract.  The ATTRIB/CLOSE_WRITE
revision renders identically whenever its two extra predicates are
false. -/
theorem event_string_C9 (q : String → String) (e : Event) (e6 : Event6) :
    (fileEventString q e =
      q e.path ++ ": " ++ String.intercalate "|" (activeTriggerNames e))
    ∧ (e6.isAttrib = false → e6.isCloseWrite = false →
        fileEventString6 q e6 =
          q e6.name ++ ": " ++ String.intercalate "|"
            ((if e6.isCreate then ["CREATE"] else []) ++
             (if e6.isDelete then ["DELETE"] else []) ++
             (if e6.isModify then ["MODIFY"] else []) ++
             (if e6.isRename then ["RENAME"] else []))) := by
  constructor
  · rcases e with ⟨c, d, m, r, pth⟩
    cases c <;> cases d <;> cases m <;> cases r <;> rfl
  · intro ha hc
    rcases e6 with ⟨c, d, m, r, a, cw, nm⟩
    simp only at ha hc
    subst ha
    subst hc
    cases c <;> cases d <;> cases m <;> cases r <;> rfl

/-- Witness for C9: the ATTRIB/CLOSE_WRITE-free part at a concrete
Modify-and-Rename event. -/
theorem event_string_C9_witness :
    fileEventString6 (fun s => s)
        { isCreate := false, isDelete := false, isModify := true, isRename := true,
          isAttrib := false, isCloseWrite := false, name := "f.txt" } =
      (fun s : String => s) "f.txt" ++ ": " ++ String.intercalate "|"
        ((if false then ["CREATE"] else []) ++ (if false then ["DELETE"] else []) ++
         (if true then ["MODIFY"] else []) ++ (if true then ["RENAME"] else [])) :=
  (event_string_C9 (fun s => s)
    { isCreate := false, isDelete := false, isModify := false, isRename := false,
      path := "x" }
    { isCreate := false, isDelete := false, isModify := true, isRename := true,
      isAttrib := false, isCloseWrite := false, name := "f.txt" }).2 rfl rfl

/-- C10: Unwatch is not atomic — `RemoveWatch` deletes the facade table
entry before invoking the backend removal, so the entry is gone even
when the backend fails; in particular, for a path the backend does not
watch, the not-currently-watched error is returned and the facade entry
is nonetheless removed. -/
theorem remove_watch_C10 (pipelines : List (String × Pipeline))
    (watches : List (String × Nat)) (path : String) :
    ((removeWatchFacade pipelines watches path).1.lookup path = none)
    ∧ (watches.lookup path = none →
        (removeWatchFacade pipelines watches path).2.2 =
          Except.error ("can't remove non-existent kevent watch for: " ++ path)) := by
  constructor
  · exact lookup_eraseKey_self _ _
  · intro h
    show (kqRemoveWatch watches path).2 = _
    rw [kqRemoveWatch, h]

/-- Witness for C10: removing an unwatched path `"p"` errors, yet the
facade entry for `"p"` is gone. -/
theorem remove_watch_C10_witness :
    ((removeWatchFacade [("p", zeroPipeline)] [] "p").1.lookup "p" = none)
    ∧ ((removeWatchFacade [("p", zeroPipeline)] [] "p").2.2 =
        Except.error ("can't remove non-existent kevent watch for: " ++ "p")) :=
  ⟨(remove_watch_C10 [("p", zeroPipeline)] [] "p").1,
    (remove_watch_C10 [("p", zeroPipeline)] [] "p").2 rfl⟩

/-- Sanity checks of the `filepath.Match` embedding: literals, star,
question mark, character classes, negated classes, and a malformed
pattern. -/
theorem filepathMatch_checks :
    filepathMatch "*.go" "main.go" = some true
    ∧ filepathMatch "*.go" "main.c" = some false
    ∧ filepathMatch "*.c" "main.c" = some true
    ∧ filepathMatch "[" "x" = none
    ∧ filepathMatch "ma?n.[fg]o" "main.go" = some true
    ∧ filepathMatch "ma?n.[^fg]o" "main.go" = some false := by
  decide

/-- Sanity checks of the `filepath.Base` and `isHidden` embeddings. -/
theorem filepathBase_checks :
    filepathBase "folder/.DS_Store" = ".DS_Store"
    ∧ filepathBase "" = "."
    ∧ filepathBase "///" = "/"
    ∧ filepathBase "a/b/" = "b"
    ∧ isHidden ".subl26d.tmp" = true
    ∧ isHidden "folder/.DS_Store" = true
    ∧ isHidden "main.go" = false
    ∧ isHidden "." = false
    ∧ isHidden ".." = false := by
  decide

end Fsnotify
